import Mathlib

/-!
Shallow embedding of the `merkle_tree` commitment service (Rust) and proofs
about it.  Bytes are modelled as `Nat` (values < 256), byte strings as
`List Nat`.  The repository hashes with `sha2::Sha256`; `sha256` below is a
full executable SHA-256 over byte lists, so every digest computed here is the
digest the Rust code computes.

Embedded source files:
* `src/models/merkle.rs`   — `MerkleNode`, `MerkleTree`
* `src/crypto/proof.rs`    — `ProofElement`, `MerkleProof`, `generate_proof`
* `src/models/commitment.rs`, `src/error.rs`
* `src/storage/memory.rs`  — `MemoryStorage` (the `RwLock` state is passed
  explicitly; `add_commitment` returns the new state)
* `src/dto/request.rs`     — `AddCommitmentRequest::validate`
-/

set_option maxRecDepth 100000

/-! ## SHA-256 (the digest function used uniformly by the repository) -/

namespace Sha256

def rotr (n x : Nat) : Nat := ((x >>> n) ||| (x <<< (32 - n))) % 4294967296

def add32 (a b : Nat) : Nat := (a + b) % 4294967296

def bigSigma0 (x : Nat) : Nat := (rotr 2 x) ^^^ (rotr 13 x) ^^^ (rotr 22 x)

def bigSigma1 (x : Nat) : Nat := (rotr 6 x) ^^^ (rotr 11 x) ^^^ (rotr 25 x)

def smallSigma0 (x : Nat) : Nat := (rotr 7 x) ^^^ (rotr 18 x) ^^^ (x >>> 3)

def smallSigma1 (x : Nat) : Nat := (rotr 17 x) ^^^ (rotr 19 x) ^^^ (x >>> 10)

def kConst : List Nat :=
  [1116352408, 1899447441, 3049323471, 3921009573, 961987163, 1508970993,
   2453635748, 2870763221, 3624381080, 310598401, 607225278, 1426881987,
   1925078388, 2162078206, 2614888103, 3248222580, 3835390401, 4022224774,
   264347078, 604807628, 770255983, 1249150122, 1555081692, 1996064986,
   2554220882, 2821834349, 2952996808, 3210313671, 3336571891, 3584528711,
   113926993, 338241895, 666307205, 773529912, 1294757372, 1396182291,
   1695183700, 1986661051, 2177026350, 2456956037, 2730485921, 2820302411,
   3259730800, 3345764771, 3516065817, 3600352804, 4094571909, 275423344,
   430227734, 506948616, 659060556, 883997877, 958139571, 1322822218,
   1537002063, 1747873779, 1955562222, 2024104815, 2227730452, 2361852424,
   2428436474, 2756734187, 3204031479, 3329325298]

def initH : List Nat :=
  [1779033703, 3144134277, 1013904242, 2773480762, 1359893119, 2600822924, 528734635, 1541459225]

def bytesToWords : List Nat → List Nat
  | a :: b :: c :: d :: rest => (((a * 256 + b) * 256 + c) * 256 + d) :: bytesToWords rest
  | _ => []

def wordToBytes (w : Nat) : List Nat :=
  [w / 16777216 % 256, w / 65536 % 256, w / 256 % 256, w % 256]

def pad (msg : List Nat) : List Nat :=
  let bitLen := msg.length * 8
  let zeros := (119 - msg.length % 64) % 64
  msg ++ 0x80 :: List.replicate zeros 0 ++
    [bitLen / 72057594037927936 % 256, bitLen / 281474976710656 % 256,
     bitLen / 1099511627776 % 256, bitLen / 4294967296 % 256,
     bitLen / 16777216 % 256, bitLen / 65536 % 256, bitLen / 256 % 256, bitLen % 256]

def extendWords (w0 : List Nat) : List Nat :=
  (List.range 48).foldl (fun w _ =>
    let n := w.length
    w ++ [add32 (add32 (smallSigma1 (w.getD (n - 2) 0)) (w.getD (n - 7) 0))
            (add32 (smallSigma0 (w.getD (n - 15) 0)) (w.getD (n - 16) 0))]) w0

def round (st : List Nat) (kw : Nat × Nat) : List Nat :=
  match st with
  | [a, b, c, d, e, f, g, h] =>
    let ch := (e &&& f) ^^^ ((4294967295 ^^^ e) &&& g)
    let maj := (a &&& b) ^^^ (a &&& c) ^^^ (b &&& c)
    let t1 := add32 (add32 (add32 h (bigSigma1 e)) (add32 ch kw.1)) kw.2
    let t2 := add32 (bigSigma0 a) maj
    [add32 t1 t2, a, b, c, add32 d t1, e, f, g]
  | _ => st

def compress (hs : List Nat) (block : List Nat) : List Nat :=
  let w := extendWords (bytesToWords block)
  let out := (kConst.zip w).foldl round hs
  (hs.zip out).map (fun p => add32 p.1 p.2)

def splitBlocks : Nat → List Nat → List (List Nat)
  | 0, _ => []
  | _, [] => []
  | fuel + 1, l => l.take 64 :: splitBlocks fuel (l.drop 64)

end Sha256

/-- SHA-256 of a byte string, as a list of 32 bytes (`Sha256::digest` of the
`sha2` crate, which the repository uses for every hash). -/
def sha256 (msg : List Nat) : List Nat :=
  let padded := Sha256.pad msg
  let blocks := Sha256.splitBlocks padded.length padded
  (blocks.foldl Sha256.compress Sha256.initH).foldr (fun w acc => Sha256.wordToBytes w ++ acc) []

/-- Sanity anchor: the embedding computes real SHA-256 (`sha256 "abc"` is the
standard test vector). -/
theorem sha256_test_vector_abc : sha256 [97, 98, 99] =
    [186, 120, 22, 191, 143, 1, 207, 234, 65, 65, 64, 222, 93, 174, 34, 35,
     176, 3, 97, 163, 150, 23, 122, 156, 180, 16, 255, 97, 242, 0, 21, 173] := by
  decide

/-! ## `src/models/merkle.rs` -/

/-- A node in the Merkle tree (`MerkleNode { hash, left, right }`).  The Rust
struct stores optional boxed children, so one-child nodes are representable. -/
inductive MerkleNode where
  | mk (hash : List Nat) (left : Option MerkleNode) (right : Option MerkleNode)

def MerkleNode.hash : MerkleNode → List Nat
  | .mk h _ _ => h

def MerkleNode.left : MerkleNode → Option MerkleNode
  | .mk _ l _ => l

def MerkleNode.right : MerkleNode → Option MerkleNode
  | .mk _ _ r => r

/-- `MerkleNode::new_leaf`: hash the raw data, no children. -/
def MerkleNode.new_leaf (data : List Nat) : MerkleNode :=
  .mk (sha256 data) none none

/-- `MerkleNode::new_parent`: hash of left child's hash concatenated with the
right child's hash, both children present. -/
def MerkleNode.new_parent (l r : MerkleNode) : MerkleNode :=
  .mk (sha256 (l.hash ++ r.hash)) (some l) (some r)

def MerkleNode.root_hash (n : MerkleNode) : List Nat := n.hash

def MerkleNode.is_leaf (n : MerkleNode) : Bool :=
  n.left.isNone && n.right.isNone

/-- `MerkleTree { root, leaf_count }`. -/
structure MerkleTree where
  root : Option MerkleNode
  leaf_count : Nat

/-- `MerkleTree::new`. -/
def MerkleTree.new : MerkleTree := ⟨none, 0⟩

/-- One pass of the `for chunk in current_level.chunks(2)` loop in
`MerkleTree::build_tree`: consecutive pairs become parents, a trailing
unpaired node is paired with itself. -/
def buildLevel : List MerkleNode → List MerkleNode
  | [] => []
  | [a] => [MerkleNode.new_parent a a]
  | a :: b :: rest => MerkleNode.new_parent a b :: buildLevel rest

/-- The `while current_level.len() > 1` loop of `MerkleTree::build_tree`.
The loop strictly shrinks the level, so a fuel of `leaves.length` (consumed
once per iteration) always suffices; the `0, _ :: _ :: _` arm is unreachable
from `build_tree`. -/
def buildLoop : Nat → List MerkleNode → Option MerkleNode
  | _, [] => none
  | _, [a] => some a
  | 0, _ :: _ :: _ => none
  | fuel + 1, a :: b :: rest => buildLoop fuel (buildLevel (a :: b :: rest))

/-- `MerkleTree::build_tree`: `None` on an empty list, otherwise fold levels
until one node remains. -/
def MerkleTree.build_tree (leaves : List MerkleNode) : Option MerkleNode :=
  buildLoop leaves.length leaves

/-- `MerkleTree::from_leaves`. -/
def MerkleTree.from_leaves (leaves : List MerkleNode) : MerkleTree :=
  ⟨MerkleTree.build_tree leaves, leaves.length⟩

def MerkleTree.root_hash (t : MerkleTree) : Option (List Nat) :=
  t.root.map MerkleNode.hash

/-- `impl Default for MerkleTree` delegates to `new`. -/
def MerkleTree.default : MerkleTree := MerkleTree.new

/-! ## `src/crypto/proof.rs` -/

/-- `ProofElement { hash, is_left }`. -/
structure ProofElement where
  hash : List Nat
  is_left : Bool
deriving DecidableEq

/-- `MerkleProof { index, value, proof, root }`. -/
structure MerkleProof where
  index : Nat
  value : List Nat
  proof : List ProofElement
  root : List Nat

def MerkleProof.new (index : Nat) (value : List Nat) (proof : List ProofElement)
    (root : List Nat) : MerkleProof :=
  ⟨index, value, proof, root⟩

/-- `MerkleProof::verify`: fold the sibling path starting from the hash of the
value, orienting each combination by `is_left`, and compare with the root. -/
def MerkleProof.verify (p : MerkleProof) : Bool :=
  let current := p.proof.foldl
    (fun current element =>
      if element.is_left then sha256 (element.hash ++ current)
      else sha256 (current ++ element.hash))
    (sha256 p.value)
  current == p.root

/-- The recursive `helper` inside `generate_proof`.  `none` models a Rust
panic: the only panic site is `node.left.unwrap()` on a node whose `left` is
`None` but whose `right` is `Some` (the source's `unwrap_or(left)` covers a
missing `right`).  A leaf ends the path with an empty proof. -/
def generateProofHelper : MerkleNode → Nat → Nat → Nat → Option (List ProofElement)
  | .mk _ none none, _, _, _ => some []
  | .mk _ none (some _), _, _, _ => none
  | .mk _ (some left) (some right), idx, begin_, leaves_count =>
    let left_count := (leaves_count + 1) / 2
    let right_count := leaves_count - left_count
    let right_begin := begin_ + left_count
    if idx < begin_ + left_count then
      (generateProofHelper left idx begin_ left_count).map
        (fun p => p ++ [⟨right.hash, false⟩])
    else
      (generateProofHelper right idx right_begin right_count).map
        (fun p => p ++ [⟨left.hash, true⟩])
  | .mk _ (some left) none, idx, begin_, leaves_count =>
    let left_count := (leaves_count + 1) / 2
    let right_count := leaves_count - left_count
    let right_begin := begin_ + left_count
    if idx < begin_ + left_count then
      (generateProofHelper left idx begin_ left_count).map
        (fun p => p ++ [⟨left.hash, false⟩])
    else
      (generateProofHelper left idx right_begin right_count).map
        (fun p => p ++ [⟨left.hash, true⟩])

/-- `generate_proof(tree, target_index, total_leaves)`. -/
def generate_proof (tree : MerkleNode) (target_index : Nat) (total_leaves : Nat) :
    Option (List ProofElement) :=
  generateProofHelper tree target_index 0 total_leaves

/-! ## `src/error.rs`, `src/models/commitment.rs`, `src/storage/memory.rs` -/

inductive AppError where
  | NotFound (msg : String)
  | TreeBuildError (msg : String)
  | InvalidInput (msg : String)
  | Internal (msg : String)

/-- `Commitment { index, value, merkle_root }`. -/
structure Commitment where
  index : Nat
  value : List Nat
  merkle_root : List Nat
deriving DecidableEq

def Commitment.new (index : Nat) (value : List Nat) (merkle_root : List Nat) : Commitment :=
  ⟨index, value, merkle_root⟩

/-- `MemoryStorage`'s lock-guarded state: the commitment vector and the
current tree, passed explicitly through each operation. -/
structure MemoryStorage where
  commitments : List Commitment
  tree : MerkleTree

/-- `MemoryStorage::new`. -/
def MemoryStorage.new : MemoryStorage := ⟨[], MerkleTree.new⟩

/-- `MemoryStorage::add_commitment`: the new index is the current length; the
tree is rebuilt from every stored value plus the new one; the commitment is
appended and the tree replaced.  Mutation is returned as the new state. -/
def MemoryStorage.add_commitment (s : MemoryStorage) (value : List Nat) :
    Except AppError ((Nat × List Nat) × MemoryStorage) :=
  let index := s.commitments.length
  let leaves := s.commitments.map (fun c => MerkleNode.new_leaf c.value) ++
    [MerkleNode.new_leaf value]
  let tree := MerkleTree.from_leaves leaves
  match tree.root_hash with
  | none => .error (.TreeBuildError "Failed to build tree")
  | some merkle_root =>
    let commitment := Commitment.new index value merkle_root
    .ok ((index, merkle_root), ⟨s.commitments ++ [commitment], tree⟩)

/-- `MemoryStorage::get_commitment`: `Vec::get(index)` or `NotFound`. -/
def MemoryStorage.get_commitment (s : MemoryStorage) (index : Nat) :
    Except AppError Commitment :=
  match s.commitments.get? index with
  | some c => .ok c
  | none =>
    .error (.NotFound ("Commitment with index " ++ toString index ++ " not found"))

def MemoryStorage.get_all_commitments (s : MemoryStorage) :
    Except AppError (List Commitment) :=
  .ok s.commitments

def MemoryStorage.get_tree (s : MemoryStorage) : Except AppError MerkleTree :=
  .ok s.tree

/-- `MemoryStorage::get_root_hash`: the current tree's root hash or
`NotFound`. -/
def MemoryStorage.get_root_hash (s : MemoryStorage) : Except AppError (List Nat) :=
  match s.tree.root_hash with
  | some h => .ok h
  | none => .error (.NotFound "No root hash available")

def MemoryStorage.commitment_count (s : MemoryStorage) : Except AppError Nat :=
  .ok s.commitments.length

/-! ## `src/dto/request.rs` -/

/-- `AddCommitmentRequest { value }`. -/
structure AddCommitmentRequest where
  value : List Nat

/-- `AddCommitmentRequest::validate`: reject empty and oversized values at the
API boundary. -/
def AddCommitmentRequest.validate (r : AddCommitmentRequest) : Except String Unit :=
  if r.value.isEmpty then .error "Value cannot be empty"
  else if r.value.length > 1000000 then .error "Value too large (max 1MB)"
  else .ok ()

/-! ## Derived notions used to state the claims -/

/-- Well-formedness of a node: a leaf (no children) or an internal node with
both children present and well-formed.  A node with exactly one child is
ill-formed. -/
def MerkleNode.wfb : MerkleNode → Bool
  | .mk _ none none => true
  | .mk _ (some l) (some r) => l.wfb && r.wfb
  | .mk _ _ _ => false

/-- Well-formedness of an optional root. -/
def wfRoot : Option MerkleNode → Bool
  | none => true
  | some n => n.wfb

/-- `n.depthb d` holds when every root-to-leaf path in `n` has length exactly
`d` and every internal node on the way has both children. -/
def MerkleNode.depthb : MerkleNode → Nat → Bool
  | .mk _ none none, 0 => true
  | .mk _ (some l) (some r), d + 1 => l.depthb d && r.depthb d
  | _, _ => false

/-- A `NotFound` outcome. -/
def isNotFound {α : Type} : Except AppError α → Bool
  | .error (.NotFound _) => true
  | _ => false

/-- An `Ok` outcome. -/
def isOkE {α : Type} : Except AppError α → Bool
  | .ok _ => true
  | _ => false

/-- End-to-end harness mirroring the repository's round-trip tests and the
`get_proof` handler: build the tree over the given values, generate the proof
for index `i`, package it with the value at `i` and the tree's root hash, and
verify it.  `none` when the tree has no root or proof generation panics. -/
def proveAndVerify (values : List (List Nat)) (i : Nat) : Option Bool :=
  let t := MerkleTree.from_leaves (values.map MerkleNode.new_leaf)
  match t.root with
  | none => none
  | some r =>
    (generate_proof r i values.length).map
      (fun p => (MerkleProof.new i (values.getD i []) p r.hash).verify)

/-! ## Structural lemmas about tree construction -/

theorem buildLevel_length : ∀ l : List MerkleNode, (buildLevel l).length = (l.length + 1) / 2
  | [] => by simp [buildLevel]
  | [_] => by simp [buildLevel]
  | _ :: _ :: rest => by
    simp [buildLevel, buildLevel_length rest]
    omega

theorem buildLoop_isSome : ∀ (fuel : Nat) (l : List MerkleNode),
    l ≠ [] → l.length ≤ fuel + 1 → (buildLoop fuel l).isSome = true
  | _, [], h, _ => absurd rfl h
  | _, [_], _, _ => by simp [buildLoop]
  | 0, _ :: _ :: rest, _, hlen => by simp at hlen
  | fuel + 1, a :: b :: rest, _, hlen => by
    show (buildLoop fuel (buildLevel (a :: b :: rest))).isSome = true
    have hl := buildLevel_length (a :: b :: rest)
    apply buildLoop_isSome fuel
    · intro hnil
      rw [hnil] at hl
      simp at hl
      omega
    · simp at hlen hl
      omega

theorem buildLevel_wfb : ∀ l : List MerkleNode,
    (∀ x ∈ l, x.wfb = true) → ∀ y ∈ buildLevel l, y.wfb = true
  | [], _, y, hy => by simp [buildLevel] at hy
  | [a], hall, y, hy => by
    simp [buildLevel] at hy
    subst hy
    simp [MerkleNode.new_parent, MerkleNode.wfb]
    exact hall a (by simp)
  | a :: b :: rest, hall, y, hy => by
    simp only [buildLevel, List.mem_cons] at hy
    rcases hy with hy | hy
    · subst hy
      simp [MerkleNode.new_parent, MerkleNode.wfb]
      exact ⟨hall a (by simp), hall b (by simp)⟩
    · exact buildLevel_wfb rest (fun x hx => hall x (by simp [hx])) y hy

theorem buildLoop_wfb : ∀ (fuel : Nat) (l : List MerkleNode) (r : MerkleNode),
    (∀ x ∈ l, x.wfb = true) → buildLoop fuel l = some r → r.wfb = true
  | _, [], _, _, h => by simp [buildLoop] at h
  | _, [a], r, hall, h => by
    simp [buildLoop] at h
    rw [← h]
    exact hall a (by simp)
  | 0, _ :: _ :: _, _, _, h => by simp [buildLoop] at h
  | fuel + 1, a :: b :: rest, r, hall, h =>
    buildLoop_wfb fuel (buildLevel (a :: b :: rest)) r
      (buildLevel_wfb (a :: b :: rest) hall) h

theorem buildLevel_depthb : ∀ (l : List MerkleNode) (d : Nat),
    (∀ x ∈ l, x.depthb d = true) → ∀ y ∈ buildLevel l, y.depthb (d + 1) = true
  | [], _, _, y, hy => by simp [buildLevel] at hy
  | [a], d, hall, y, hy => by
    simp [buildLevel] at hy
    subst hy
    simp [MerkleNode.new_parent, MerkleNode.depthb]
    exact hall a (by simp)
  | a :: b :: rest, d, hall, y, hy => by
    simp only [buildLevel, List.mem_cons] at hy
    rcases hy with hy | hy
    · subst hy
      simp [MerkleNode.new_parent, MerkleNode.depthb]
      exact ⟨hall a (by simp), hall b (by simp)⟩
    · exact buildLevel_depthb rest d (fun x hx => hall x (by simp [hx])) y hy

theorem buildLoop_depthb : ∀ (fuel : Nat) (l : List MerkleNode) (d : Nat) (r : MerkleNode),
    l.length ≤ fuel + 1 → (∀ x ∈ l, x.depthb d = true) → buildLoop fuel l = some r →
    r.depthb (d + Nat.clog 2 l.length) = true
  | _, [], _, _, _, _, h => by simp [buildLoop] at h
  | _, [a], d, r, _, hall, h => by
    simp [buildLoop] at h
    rw [← h]
    simpa [Nat.clog_one_right] using hall a (by simp)
  | 0, _ :: _ :: rest, _, _, hlen, _, _ => by simp at hlen
  | fuel + 1, a :: b :: rest, d, r, hlen, hall, h => by
    have hl := buildLevel_length (a :: b :: rest)
    have hstep : buildLoop (fuel + 1) (a :: b :: rest) =
        buildLoop fuel (buildLevel (a :: b :: rest)) := rfl
    rw [hstep] at h
    have hres := buildLoop_depthb fuel (buildLevel (a :: b :: rest)) (d + 1) r
      (by simp at hlen hl ⊢; omega)
      (buildLevel_depthb (a :: b :: rest) d hall) h
    have hclog : Nat.clog 2 (a :: b :: rest).length =
        Nat.clog 2 (((a :: b :: rest).length + 1) / 2) + 1 := by
      have h2 : 2 ≤ (a :: b :: rest).length := by
        simp only [List.length_cons]
        omega
      have := Nat.clog_of_two_le (Nat.one_lt_two) h2
      simpa using this
    rw [hl] at hres
    rw [hclog]
    have harith : d + (Nat.clog 2 (((a :: b :: rest).length + 1) / 2) + 1) =
        d + 1 + Nat.clog 2 (((a :: b :: rest).length + 1) / 2) := by omega
    rw [harith]
    exact hres

/-- On a node whose paths all have length `d`, `generate_proof`'s helper never
panics and always returns a proof of exactly `d` elements, whatever the index
and range arguments are. -/
theorem generateProofHelper_depth : ∀ (d : Nat) (node : MerkleNode),
    node.depthb d = true → ∀ (idx begin_ cnt : Nat),
    ∃ p, generateProofHelper node idx begin_ cnt = some p ∧ p.length = d := by
  intro d
  induction d with
  | zero =>
    intro node h idx begin_ cnt
    match node with
    | .mk hh none none => exact ⟨[], rfl, rfl⟩
    | .mk hh none (some r) => simp [MerkleNode.depthb] at h
    | .mk hh (some l) none => simp [MerkleNode.depthb] at h
    | .mk hh (some l) (some r) => simp [MerkleNode.depthb] at h
  | succ d ih =>
    intro node h idx begin_ cnt
    match node with
    | .mk hh none none => simp [MerkleNode.depthb] at h
    | .mk hh none (some r) => simp [MerkleNode.depthb] at h
    | .mk hh (some l) none => simp [MerkleNode.depthb] at h
    | .mk hh (some l) (some r) =>
      simp only [MerkleNode.depthb, Bool.and_eq_true] at h
      by_cases hc : idx < begin_ + (cnt + 1) / 2
      · obtain ⟨p, hp, hlen⟩ := ih l h.1 idx begin_ ((cnt + 1) / 2)
        refine ⟨p ++ [⟨r.hash, false⟩], ?_, ?_⟩
        · simp [generateProofHelper, hc, hp]
        · simp [hlen]
      · obtain ⟨p, hp, hlen⟩ :=
          ih r h.2 idx (begin_ + (cnt + 1) / 2) (cnt - (cnt + 1) / 2)
        refine ⟨p ++ [⟨l.hash, true⟩], ?_, ?_⟩
        · simp [generateProofHelper, hc, hp]
        · simp [hlen]

/-- Every leaf node produced by `new_leaf` has uniform depth `0`. -/
theorem new_leaf_depthb (v : List Nat) : (MerkleNode.new_leaf v).depthb 0 = true := rfl

/-- The root of a tree built from `n ≥ 1` leaves has uniform depth
`⌈log₂ n⌉`. -/
theorem from_leaves_root_depthb (values : List (List Nat)) (r : MerkleNode)
    (hr : (MerkleTree.from_leaves (values.map MerkleNode.new_leaf)).root = some r) :
    r.depthb (Nat.clog 2 values.length) = true := by
  have hres := buildLoop_depthb (values.map MerkleNode.new_leaf).length
    (values.map MerkleNode.new_leaf) 0 r
    (by omega)
    (by
      intro x hx
      simp only [List.mem_map] at hx
      obtain ⟨v, _, rfl⟩ := hx
      exact new_leaf_depthb v)
    hr
  simpa using hres

/-- `add_commitment` always succeeds: the rebuilt leaf list contains at least
the new leaf, so the tree always has a root. -/
theorem add_commitment_isOk (s : MemoryStorage) (value : List Nat) :
    isOkE (MemoryStorage.add_commitment s value) = true := by
  have hne : s.commitments.map (fun c => MerkleNode.new_leaf c.value) ++
      [MerkleNode.new_leaf value] ≠ [] := by simp
  have hsome := buildLoop_isSome
    (s.commitments.map (fun c => MerkleNode.new_leaf c.value) ++
      [MerkleNode.new_leaf value]).length
    (s.commitments.map (fun c => MerkleNode.new_leaf c.value) ++
      [MerkleNode.new_leaf value])
    hne (by omega)
  obtain ⟨r, hr⟩ := Option.isSome_iff_exists.mp hsome
  unfold MemoryStorage.add_commitment
  simp only [MerkleTree.from_leaves, MerkleTree.build_tree, MerkleTree.root_hash]
  rw [hr]
  rfl

/-! ## Claim theorems -/

/-- C3: for every one-element value sequence, `from_leaves` yields a tree
whose root is the single leaf itself — so the root hash is the digest of the
value, no parent combination happens — and `generate_proof` at index 0 on
that tree returns the empty proof sequence. -/
theorem C3_single_leaf_root_and_empty_proof : ∀ v : List Nat,
    (MerkleTree.from_leaves [MerkleNode.new_leaf v]).root_hash = some (sha256 v)
    ∧ (MerkleTree.from_leaves [MerkleNode.new_leaf v]).root = some (MerkleNode.new_leaf v)
    ∧ generate_proof (MerkleNode.new_leaf v) 0 1 = some [] :=
  fun _ => ⟨rfl, rfl, rfl⟩

/-- C10: `MerkleProof::verify` never consults the `index` field: two proofs
that agree on value, path and root but have arbitrary different indices
verify identically, so a proof does not bind the value to its position. -/
theorem C10_verify_ignores_index :
    ∀ (i j : Nat) (value : List Nat) (proof : List ProofElement) (root : List Nat),
    (MerkleProof.new i value proof root).verify = (MerkleProof.new j value proof root).verify :=
  fun _ _ _ _ _ => rfl

/-- C9: trees produced by `new` (= `default`) and by `from_leaves` over
hashed leaves are well formed: `leaf_count = 0` iff the root is absent, and
every reachable internal node has both children (odd counts duplicate the
unpaired node, never leaving a single dangling child). -/
theorem C9_tree_well_formed : ∀ values : List (List Nat),
    wfRoot (MerkleTree.from_leaves (values.map MerkleNode.new_leaf)).root = true
    ∧ ((MerkleTree.from_leaves (values.map MerkleNode.new_leaf)).leaf_count = 0 ↔
        (MerkleTree.from_leaves (values.map MerkleNode.new_leaf)).root = none)
    ∧ MerkleTree.new.root = none ∧ MerkleTree.new.leaf_count = 0
    ∧ MerkleTree.default = MerkleTree.new := by
  intro values
  refine ⟨?_, ⟨?_, ?_⟩, rfl, rfl, rfl⟩
  · cases hr : (MerkleTree.from_leaves (values.map MerkleNode.new_leaf)).root with
    | none => rfl
    | some r =>
      have hwf := buildLoop_wfb (values.map MerkleNode.new_leaf).length
        (values.map MerkleNode.new_leaf) r
        (by
          intro x hx
          simp only [List.mem_map] at hx
          obtain ⟨v, _, rfl⟩ := hx
          rfl)
        hr
      simpa [wfRoot] using hwf
  · intro hcount
    have hnil : values = [] := by
      simpa [MerkleTree.from_leaves] using hcount
    subst hnil
    rfl
  · intro hroot
    by_contra hne
    have hvne : values ≠ [] := by
      intro hv
      exact hne (by simp [hv, MerkleTree.from_leaves])
    have hsome := buildLoop_isSome (values.map MerkleNode.new_leaf).length
      (values.map MerkleNode.new_leaf)
      (by simpa using hvne)
      (by omega)
    rw [show buildLoop (values.map MerkleNode.new_leaf).length
          (values.map MerkleNode.new_leaf) =
        (MerkleTree.from_leaves (values.map MerkleNode.new_leaf)).root from rfl,
      hroot] at hsome
    simp at hsome

/-- C4: for a tree built from `n ≥ 1` leaves and any target index `i < n`,
`generate_proof` succeeds and the proof has exactly `⌈log₂ n⌉` elements
(`Nat.clog 2 n`, which is 0 for `n = 1`). -/
theorem C4_proof_length_clog : ∀ (values : List (List Nat)) (i : Nat),
    values ≠ [] → i < values.length →
    ∀ r, (MerkleTree.from_leaves (values.map MerkleNode.new_leaf)).root = some r →
    ∃ p, generate_proof r i values.length = some p ∧
      p.length = Nat.clog 2 values.length := by
  intro values i _ _ r hr
  exact generateProofHelper_depth (Nat.clog 2 values.length) r
    (from_leaves_root_depthb values r hr) i 0 values.length

/-- C4 witness: the 4-leaf tree; the proof for index 2 exists and has
`⌈log₂ 4⌉ = 2` elements. -/
theorem C4_proof_length_clog_witness :
    ∃ p, generate_proof
        (MerkleNode.new_parent
          (MerkleNode.new_parent (MerkleNode.new_leaf [0]) (MerkleNode.new_leaf [1]))
          (MerkleNode.new_parent (MerkleNode.new_leaf [2]) (MerkleNode.new_leaf [3])))
        2 4 = some p ∧ p.length = Nat.clog 2 4 :=
  C4_proof_length_clog [[0], [1], [2], [3]] 2 (by decide) (by decide) _ rfl

/-- C5 counterexample: `generate_proof` called with `target_index = 5` on a
2-leaf tree (`total_leaves = 2`) does not panic and raises no error — it
silently returns a proof sequence (the claim says an out-of-range index fails
loudly). -/
theorem C5_out_of_range_counterexample :
    ((MerkleTree.from_leaves [MerkleNode.new_leaf [0], MerkleNode.new_leaf [1]]).root.map
      (fun r => (generate_proof r 5 2).isSome)) = some true := by
  decide

/-- C5 amended: `generate_proof` with any out-of-range index on a tree built
from `n ≥ 1` leaves does not fail loudly; it silently returns a proof of the
usual `⌈log₂ n⌉` elements exactly as for an in-range index. -/
theorem C5_out_of_range_silent : ∀ (values : List (List Nat)) (idx : Nat),
    values ≠ [] →
    ∀ r, (MerkleTree.from_leaves (values.map MerkleNode.new_leaf)).root = some r →
    ∃ p, generate_proof r idx values.length = some p ∧
      p.length = Nat.clog 2 values.length := by
  intro values idx _ r hr
  exact generateProofHelper_depth (Nat.clog 2 values.length) r
    (from_leaves_root_depthb values r hr) idx 0 values.length

/-- C5 witness: the out-of-range index 5 on the 2-leaf tree still yields a
(one-element) proof. -/
theorem C5_out_of_range_silent_witness :
    ∃ p, generate_proof
        (MerkleNode.new_parent (MerkleNode.new_leaf [0]) (MerkleNode.new_leaf [1]))
        5 2 = some p ∧ p.length = Nat.clog 2 2 :=
  C5_out_of_range_silent [[0], [1]] 5 (by decide) _ rfl

/-- C6: `add_commitment` returns the pre-call commitment count as index,
appends exactly one `Commitment` carrying that index, the value and the root
of the tree rebuilt from all values including the new one, installs that
rebuilt tree, and returns the same root recorded on the commitment. -/
theorem C6_add_commitment_semantics : ∀ (s : MemoryStorage) (value : List Nat),
    ∃ merkle_root : List Nat,
      (MerkleTree.from_leaves (s.commitments.map (fun c => MerkleNode.new_leaf c.value) ++
        [MerkleNode.new_leaf value])).root_hash = some merkle_root
      ∧ MemoryStorage.add_commitment s value =
          .ok ((s.commitments.length, merkle_root),
            ⟨s.commitments ++ [Commitment.new s.commitments.length value merkle_root],
             MerkleTree.from_leaves (s.commitments.map (fun c => MerkleNode.new_leaf c.value) ++
               [MerkleNode.new_leaf value])⟩) := by
  intro s value
  have hne : s.commitments.map (fun c => MerkleNode.new_leaf c.value) ++
      [MerkleNode.new_leaf value] ≠ [] := by simp
  have hsome := buildLoop_isSome
    (s.commitments.map (fun c => MerkleNode.new_leaf c.value) ++
      [MerkleNode.new_leaf value]).length
    (s.commitments.map (fun c => MerkleNode.new_leaf c.value) ++
      [MerkleNode.new_leaf value])
    hne (by omega)
  obtain ⟨r, hr⟩ := Option.isSome_iff_exists.mp hsome
  refine ⟨r.hash, ?_, ?_⟩
  · simp only [MerkleTree.from_leaves, MerkleTree.build_tree, MerkleTree.root_hash]
    rw [hr]
    rfl
  · unfold MemoryStorage.add_commitment
    simp only [MerkleTree.from_leaves, MerkleTree.build_tree, MerkleTree.root_hash]
    rw [hr]
    rfl

/-- C7: `get_commitment(index)` is `NotFound` exactly when `index` is at least
the commitment count, and returns the stored commitment otherwise; on the
empty store both `get_root_hash()` and `get_commitment(0)` are `NotFound`. -/
theorem C7_get_notfound_iff : ∀ (s : MemoryStorage) (i : Nat),
    (isNotFound (s.get_commitment i) = true ↔ s.commitments.length ≤ i)
    ∧ (∀ c, s.commitments.get? i = some c → s.get_commitment i = .ok c)
    ∧ isNotFound MemoryStorage.new.get_root_hash = true
    ∧ isNotFound (MemoryStorage.new.get_commitment 0) = true := by
  intro s i
  refine ⟨?_, ?_, rfl, rfl⟩
  · unfold MemoryStorage.get_commitment
    cases hg : s.commitments.get? i with
    | none =>
      simp only [isNotFound]
      rw [List.get?_eq_none] at hg
      simpa using hg
    | some c =>
      simp only [isNotFound]
      constructor
      · intro h
        exact absurd h (by simp)
      · intro h
        have := List.get?_eq_none.mpr h
        rw [this] at hg
        exact absurd hg (by simp)
  · intro c hc
    unfold MemoryStorage.get_commitment
    rw [hc]

/-- C7 witness: a store holding one commitment returns it at index 0. -/
theorem C7_get_notfound_iff_witness :
    MemoryStorage.get_commitment ⟨[Commitment.new 0 [1] [2]], MerkleTree.new⟩ 0 =
      .ok (Commitment.new 0 [1] [2]) :=
  (C7_get_notfound_iff ⟨[Commitment.new 0 [1] [2]], MerkleTree.new⟩ 0).2.1
    (Commitment.new 0 [1] [2]) rfl

/-- C8 counterexample: the Store's `add_commitment` does not reject the empty
value — on the empty store it succeeds (and records a commitment for it). -/
theorem C8_add_empty_counterexample :
    isOkE (MemoryStorage.add_commitment MemoryStorage.new []) = true := by
  decide

/-- C8 amended: `add_commitment` accepts the empty value in every state;
empty-input rejection lives in the API layer, where
`AddCommitmentRequest::validate` errors on an empty value before the store is
reached. -/
theorem C8_add_empty_amended : ∀ s : MemoryStorage,
    isOkE (MemoryStorage.add_commitment s []) = true
    ∧ AddCommitmentRequest.validate ⟨[]⟩ = .error "Value cannot be empty" := by
  intro s
  exact ⟨add_commitment_isOk s [], rfl⟩

set_option maxHeartbeats 4000000 in
/-- C1: the round-trip fails on the code.  For the five single-byte leaves
`[0],[1],[2],[3],[4]`, building the tree, generating the proof for index 3
and verifying it against the tree's root returns `false`: `build_tree`'s
bottom-up pairing puts leaves 0–3 under the root's left child, while
`generate_proof`'s top-down `ceil(5/2) = 3` split sends index 3 into the
right subtree, so the emitted sibling path reconstructs the wrong root. -/
theorem C1_roundtrip_fails_at_five_leaves :
    proveAndVerify [[0], [1], [2], [3], [4]] 3 = some false := by
  decide

set_option maxHeartbeats 4000000 in
/-- C2: of the leaf counts 1, 2, 3, 5, 7 claimed to round-trip at every
index, count 5 fails at index 3.  For arbitrary values, counts 1, 2, 3 and 7
round-trip at every index, and count 5 round-trips at indices 0, 1, 2 and 4;
but the proof for index 3 of a 5-leaf tree (here the single-byte values
10–14) does not verify. -/
theorem C2_odd_counts_five_fails_index_three :
    (∀ v : List Nat, proveAndVerify [v] 0 = some true)
    ∧ (∀ a b : List Nat,
        proveAndVerify [a, b] 0 = some true ∧ proveAndVerify [a, b] 1 = some true)
    ∧ (∀ a b c : List Nat,
        proveAndVerify [a, b, c] 0 = some true ∧ proveAndVerify [a, b, c] 1 = some true
        ∧ proveAndVerify [a, b, c] 2 = some true)
    ∧ (∀ a b c d e : List Nat,
        proveAndVerify [a, b, c, d, e] 0 = some true
        ∧ proveAndVerify [a, b, c, d, e] 1 = some true
        ∧ proveAndVerify [a, b, c, d, e] 2 = some true
        ∧ proveAndVerify [a, b, c, d, e] 4 = some true)
    ∧ (∀ a b c d e f g : List Nat,
        proveAndVerify [a, b, c, d, e, f, g] 0 = some true
        ∧ proveAndVerify [a, b, c, d, e, f, g] 1 = some true
        ∧ proveAndVerify [a, b, c, d, e, f, g] 2 = some true
        ∧ proveAndVerify [a, b, c, d, e, f, g] 3 = some true
        ∧ proveAndVerify [a, b, c, d, e, f, g] 4 = some true
        ∧ proveAndVerify [a, b, c, d, e, f, g] 5 = some true
        ∧ proveAndVerify [a, b, c, d, e, f, g] 6 = some true)
    ∧ proveAndVerify [[10], [11], [12], [13], [14]] 3 = some false := by
  refine ⟨?_, ?_, ?_, ?_, ?_, ?_⟩
  · intro v
    simp [proveAndVerify, MerkleTree.from_leaves, MerkleTree.build_tree, buildLoop,
      generate_proof, generateProofHelper, MerkleProof.verify, MerkleProof.new,
      MerkleNode.new_leaf, MerkleNode.new_parent, MerkleNode.hash, buildLevel]
  · intro a b
    constructor <;>
    simp [proveAndVerify, MerkleTree.from_leaves, MerkleTree.build_tree, buildLoop,
      generate_proof, generateProofHelper, MerkleProof.verify, MerkleProof.new,
      MerkleNode.new_leaf, MerkleNode.new_parent, MerkleNode.hash, buildLevel]
  · intro a b c
    refine ⟨?_, ?_, ?_⟩ <;>
    simp [proveAndVerify, MerkleTree.from_leaves, MerkleTree.build_tree, buildLoop,
      generate_proof, generateProofHelper, MerkleProof.verify, MerkleProof.new,
      MerkleNode.new_leaf, MerkleNode.new_parent, MerkleNode.hash, buildLevel]
  · intro a b c d e
    refine ⟨?_, ?_, ?_, ?_⟩ <;>
    simp [proveAndVerify, MerkleTree.from_leaves, MerkleTree.build_tree, buildLoop,
      generate_proof, generateProofHelper, MerkleProof.verify, MerkleProof.new,
      MerkleNode.new_leaf, MerkleNode.new_parent, MerkleNode.hash, buildLevel]
  · intro a b c d e f g
    refine ⟨?_, ?_, ?_, ?_, ?_, ?_, ?_⟩ <;>
    simp [proveAndVerify, MerkleTree.from_leaves, MerkleTree.build_tree, buildLoop,
      generate_proof, generateProofHelper, MerkleProof.verify, MerkleProof.new,
      MerkleNode.new_leaf, MerkleNode.new_parent, MerkleNode.hash, buildLevel]
  · decide
